import Mathlib

/-!
Verification of the `marcelomoti/ideias` object-store pipelines against their
natural-language specification.

The development shallowly embeds the pure control flow of the Python sources:

* `src/20250904_resolvendoProblemaListagemVazia/s3_file_mover_lambda.py`
  (resilient listing, batch partitioning, copy-verify-delete mover), and
* `src/ideiaLambdaMergeCSV/csv_merge_lambda.py`, `batch_generator_lambda.py`,
  `results_aggregator_lambda.py` (CSV merge pipeline, batch planner,
  results aggregator).

Store interactions (S3 calls) are modelled as oracles: every call site that can
return data or raise is a parameter describing what the store does on that
call.  AWS `ClientError` carries its error code; every other exception is a
single `genericErr` case, mirroring the `except ClientError` / `except
Exception` split in the sources.  Sleeps are counted rather than performed.
Concurrency in the merge pipeline is modelled by an explicit `Schedule`
(which batch wins the lock race for the header, and in which order batch
futures complete), covering exactly the outcomes reachable by interleavings
of the source's lock-protected critical sections.
-/

/-- An object listing entry, mirroring the dicts built by the listing helpers:
`{'Key': ..., 'Size': ..., 'LastModified': ...}` (`LastModified` is modelled
as an integer timestamp; it is only carried, never inspected, by the code
under verification). -/
structure FileObj where
  Key : String
  Size : Nat
  LastModified : Int
deriving DecidableEq

/-- Python's default `str.strip` whitespace set (ASCII part). -/
def pyWhitespace (c : Char) : Bool :=
  c = ' ' || c = '\t' || c = '\n' || c = '\r' || c = '\x0b' || c = '\x0c'

/-- `s.strip()` from Python: drop leading and trailing whitespace. -/
def pyStrip (s : String) : String :=
  String.mk (((s.toList.dropWhile pyWhitespace).reverse.dropWhile pyWhitespace).reverse)

/-- Helper for `pySplitLines`: split a character list on a newline character,
with Python `str.split` semantics (the empty text yields one empty field). -/
def splitOnNl : List Char → List (List Char)
  | [] => [[]]
  | c :: rest =>
    let r := splitOnNl rest
    if c = '\n' then [] :: r
    else
      match r with
      | [] => [[c]]
      | x :: xs => (c :: x) :: xs

/-- Python's `s.split('\n')`. -/
def pySplitLines (s : String) : List String :=
  (splitOnNl s.toList).map fun cs => String.mk cs

/-- Python's `s.rstrip('/')`: drop trailing slash characters. -/
def rstripSlash (s : String) : String :=
  String.mk (s.toList.reverse.dropWhile (fun c => c = '/')).reverse

/-- Fuelled worker for `chunkList`; the fuel is instantiated with the list
length, which bounds the number of produced chunks when the size is
positive. -/
def chunkListAux (B : Nat) : Nat → List α → List (List α)
  | _, [] => []
  | 0, _ :: _ => []
  | fuel + 1, a :: l => ((a :: l).take B) :: chunkListAux B fuel ((a :: l).drop B)

/-- The batch partitioning loop shared by both pipelines:
`for i in range(0, len(files), batch_size): batch = files[i:i + batch_size]`
(`process_files_in_batches` in the mover, `merge_csv_files` in the merger).
A step of `0` raises `ValueError` in Python (`range` with step 0); the model
is only used with `0 < B` and returns `[]` on the guard. -/
def chunkList (l : List α) (B : Nat) : List (List α) :=
  if B = 0 then [] else chunkListAux B l.length l

namespace Mover

/-- Result of one store call as seen by the Python handlers: success, an AWS
`ClientError` carrying its error code, or any other exception. -/
inductive Outcome where
  | ok
  | clientErr (code : String)
  | genericErr
deriving DecidableEq

/-- What the store does on one iteration of `move_file`'s retry loop: the
outcome of `copy_object`, of the `head_object` verification probe, and of
`delete_object` (the latter only reached when the probe succeeds). -/
structure MoveAttemptBehavior where
  copy : Outcome
  head : Outcome
  delete : Outcome
deriving DecidableEq

/-- `move_file`'s non-retryable `ClientError` codes
(`['NoSuchKey', 'NoSuchBucket', 'AccessDenied']`). -/
def permanentMoveCodes : List String := ["NoSuchKey", "NoSuchBucket", "AccessDenied"]

/-- One iteration of `for attempt in range(max_retries)` in `move_file`
(s3_file_mover_lambda.py lines 296-339).  First component: `some r` when the
iteration returns `r`, `none` when it falls through to the next attempt.
Second component: how many `delete_object` calls this iteration issued.
The inner `try: head_object except ClientError` either continues or returns
`False`; exceptions from `copy_object`/`delete_object` reach the outer
handlers, where a permanent code returns `False` and anything else retries
(with a linear backoff sleep, not tracked here) or ends the loop. -/
def stepMove (b : MoveAttemptBehavior) (last : Bool) : Option Bool × Nat :=
  match b.copy with
  | .ok =>
    match b.head with
    | .ok =>
      match b.delete with
      | .ok => (some true, 1)
      | .clientErr c =>
        if c ∈ permanentMoveCodes then (some false, 1)
        else if last then (some false, 1) else (none, 1)
      | .genericErr => if last then (some false, 1) else (none, 1)
    | .clientErr _ => if last then (some false, 0) else (none, 0)
    | .genericErr => if last then (some false, 0) else (none, 0)
  | .clientErr c =>
    if c ∈ permanentMoveCodes then (some false, 0)
    else if last then (some false, 0) else (none, 0)
  | .genericErr => if last then (some false, 0) else (none, 0)

/-- The retry loop of `move_file`, from attempt index `a` with `n` attempts
remaining; returns the boolean result together with the total number of
`delete_object` calls issued.  Falling out of the loop returns `False`. -/
def moveFileFrom (beh : Nat → MoveAttemptBehavior) : Nat → Nat → Bool × Nat
  | _, 0 => (false, 0)
  | a, n + 1 =>
    let s := stepMove (beh a) (n == 0)
    match s.1 with
    | some r => (r, s.2)
    | none =>
      let rest := moveFileFrom beh (a + 1) n
      (rest.1, s.2 + rest.2)

/-- `move_file(source_bucket, source_key, dest_bucket, dest_key, max_retries=2)`,
abstracted over the store behaviour per attempt. -/
def move_file (beh : Nat → MoveAttemptBehavior) (maxRetries : Nat := 2) : Bool × Nat :=
  moveFileFrom beh 0 maxRetries

/-- What happens to one file inside `process_batch`'s per-file `try`:
`move_file` returned `True`, returned `False`, or an exception escaped
(caught by the per-file `except`, counted as an error). -/
inductive FileOutcome where
  | moved
  | moveFailed
  | raised
deriving DecidableEq

/-- `process_batch` (s3_file_mover_lambda.py lines 268-294): one `success` or
`errors` increment per file.  The destination-key remapping and the actual
`move_file` call are abstracted into the per-file outcome oracle `out`. -/
def batchStep (out : FileObj → FileOutcome) (se : Nat × Nat) (f : FileObj) : Nat × Nat :=
  match out f with
  | .moved => (se.1 + 1, se.2)
  | .moveFailed => (se.1, se.2 + 1)
  | .raised => (se.1, se.2 + 1)

def process_batch (out : FileObj → FileOutcome) (batch : List FileObj) : Nat × Nat :=
  batch.foldl (batchStep out) (0, 0)

/-- `process_files_in_batches` (lines 241-266): slice into batches, sum the
per-batch counters (timing and the inter-batch sleep are not modelled). -/
def batchesStep (out : FileObj → FileOutcome) (acc : Nat × Nat)
    (batch : List FileObj) : Nat × Nat :=
  let r := process_batch out batch
  (acc.1 + r.1, acc.2 + r.2)

def process_files_in_batches (out : FileObj → FileOutcome) (files : List FileObj)
    (batch_size : Nat) : Nat × Nat :=
  (chunkList files batch_size).foldl (batchesStep out) (0, 0)

end Mover

namespace Listing

/-- Result of one listing-strategy call: a list of objects, a `ClientError`
with its code, or another exception. -/
inductive StrategyResult where
  | ok (files : List FileObj)
  | clientErr (code : String)
  | genericErr
deriving DecidableEq

/-- What the three listing strategies do on one attempt of
`get_files_with_retry` / `get_csv_files_with_retry` (both sources have the
same control flow; the CSV-suffix filter lives inside the strategies, i.e.
inside this oracle).  `list_files_by_time_range` swallows its own exceptions
(`try/except` around its whole body, returning what it gathered), so its
slot cannot raise. -/
structure AttemptBehavior where
  standard : StrategyResult
  manualPagination : StrategyResult
  timeRange : List FileObj
deriving DecidableEq

/-- Non-retryable listing codes (`['NoSuchBucket', 'AccessDenied']`). -/
def permanentListCodes : List String := ["NoSuchBucket", "AccessDenied"]

/-- Outcome of one iteration of the listing retry loop: return a list, re-raise
a permanent error, or proceed to the next attempt (recording whether a
backoff sleep was performed). -/
inductive AttemptOutcome where
  | ret (files : List FileObj)
  | raised (code : String)
  | next (slept : Bool)
deriving DecidableEq

/-- One iteration of `for attempt in range(max_retries)` in
`get_files_with_retry` (s3_file_mover_lambda.py lines 93-137, identically
csv_merge_lambda.py lines 100-144): try the standard listing, on attempt 0
also the manual pagination fallback, on attempt 1 also the time-range
fallback; a `ClientError` with a permanent code re-raises, any other error or
an empty result retries, sleeping unless this is the last attempt. -/
def listAttempt (b : AttemptBehavior) (attempt : Nat) (last : Bool) : AttemptOutcome :=
  match b.standard with
  | .clientErr c =>
    if c ∈ permanentListCodes then .raised c else .next !last
  | .genericErr => .next !last
  | .ok files =>
    if files ≠ [] then .ret files
    else if attempt == 0 then
      match b.manualPagination with
      | .clientErr c => if c ∈ permanentListCodes then .raised c else .next !last
      | .genericErr => .next !last
      | .ok files2 => if files2 ≠ [] then .ret files2 else .next !last
    else if attempt == 1 then
      if b.timeRange ≠ [] then .ret b.timeRange else .next !last
    else .next !last

/-- The listing retry loop from attempt `a` with `n` attempts remaining.
Result: the returned list or the re-raised error code, the number of
top-level attempts performed, and the number of backoff sleeps.  Exhausting
all attempts returns the empty list (the deliberate empty-is-success bias). -/
def getFilesFrom (beh : Nat → AttemptBehavior) :
    Nat → Nat → Except String (List FileObj) × Nat × Nat
  | _, 0 => (.ok [], 0, 0)
  | a, n + 1 =>
    match listAttempt (beh a) a (n == 0) with
    | .ret fs => (.ok fs, 1, 0)
    | .raised c => (.error c, 1, 0)
    | .next slept =>
      let rest := getFilesFrom beh (a + 1) n
      (rest.1, rest.2.1 + 1, rest.2.2 + (if slept then 1 else 0))

/-- `get_files_with_retry(bucket, prefix, max_files, max_retries=3)` (and the
textually identical `get_csv_files_with_retry`), abstracted over the store
behaviour per attempt. -/
def get_files_with_retry (beh : Nat → AttemptBehavior) (maxRetries : Nat := 3) :
    Except String (List FileObj) × Nat × Nat :=
  getFilesFrom beh 0 maxRetries

end Listing

namespace MergeCSV

/-- The per-file body of `process_csv_batch` (csv_merge_lambda.py lines
265-289) up to the critical section: read the object (the oracle `read`
stands for `read_csv_from_s3`, which swallows all its own exceptions and
returns `None` on unrecoverable failure), skip falsy content, split
`content.strip()` on newlines, and keep `(lines[0], lines[1])` when there
are at least two lines — every later line is discarded. -/
def validEntry (read : String → Option String) (f : FileObj) : Option (String × String) :=
  match read f.Key with
  | none => none
  | some c =>
    if c = "" then none
    else
      match pySplitLines (pyStrip c) with
      | h :: d :: _ => some (h, d)
      | _ => none

/-- The (header, data-line) pairs a batch contributes, in file order. -/
def batchData (read : String → Option String) (batch : List FileObj) :
    List (String × String) :=
  batch.filterMap (validEntry read)

/-- The `batch_content` list a batch worker returns: each valid file appends
its data line, and the batch whose first valid file wins the global
`header_written` race additionally appends that file's header just before
its data line. -/
def batchContent (entries : List (String × String)) (takesHeader : Bool) : List String :=
  if takesHeader then
    match entries with
    | [] => []
    | (h, d) :: rest => h :: d :: rest.map Prod.snd
  else entries.map Prod.snd

/-- A resolution of the nondeterminism in `merge_csv_files`'s thread pool:
`headerBatch` is the index of the batch whose first valid file enters the
lock-protected critical section before any other batch's (so it writes the
header), and `completion` is the order in which `as_completed` yields the
batch futures (the order batch contents reach the shared output buffer).
Because files within a batch are processed sequentially and the shared state
is only touched under the single lock, every thread interleaving of the
source is captured by some `Schedule`. -/
structure Schedule where
  headerBatch : Nat
  completion : List Nat
deriving DecidableEq

/-- Lines contributed by batch `i` to the output buffer. -/
def contentOfBatch (read : String → Option String) (batches : List (List FileObj))
    (hb i : Nat) : List String :=
  batchContent (batchData read (batches.getD i [])) (i == hb)

/-- Outcome of `merge_csv_files`: the two shared counters and the final
buffer, as a list of lines, plus the destination key of the output object. -/
structure MergeResult where
  files_processed : Nat
  total_rows : Nat
  mergedLines : List String
  output_key : String
deriving DecidableEq

/-- `merge_csv_files` (csv_merge_lambda.py lines 246-333) under a given
`Schedule`: slice the file list exactly as the source's
`range(0, len(csv_files), batch_size)` loop does, let every valid file bump
the lock-protected `files_processed` counter, accumulate `total_rows` and
the merged buffer in future-completion order, and derive the output key as
`f"{dest_prefix.rstrip('/')}/{output_filename}" if dest_prefix else
output_filename`.  Timing is not modelled. -/
def merge_csv_files (read : String → Option String) (csv_files : List FileObj)
    (batch_size : Nat) (sched : Schedule) (destPre output_filename : String) :
    MergeResult :=
  let batches := chunkList csv_files batch_size
  { files_processed :=
      ((List.range batches.length).map fun i =>
        (batchData read (batches.getD i [])).length).sum
    total_rows :=
      (sched.completion.map fun i => (batchData read (batches.getD i [])).length).sum
    mergedLines :=
      (sched.completion.map (contentOfBatch read batches sched.headerBatch)).flatten
    output_key :=
      if destPre = "" then output_filename
      else rstripSlash destPre ++ "/" ++ output_filename }

/-- Which `Schedule`s are reachable executions: `completion` is a permutation
of the batch indices (every future completes exactly once), and whenever some
batch has a valid file, the header race is won by a batch that has one. -/
def ValidSchedule (read : String → Option String) (csv_files : List FileObj)
    (batch_size : Nat) (s : Schedule) : Prop :=
  s.completion.Perm (List.range (chunkList csv_files batch_size).length) ∧
  ((∃ b ∈ chunkList csv_files batch_size, batchData read b ≠ []) →
    s.headerBatch < (chunkList csv_files batch_size).length ∧
    batchData read ((chunkList csv_files batch_size).getD s.headerBatch []) ≠ [])

instance (read : String → Option String) (csv_files : List FileObj)
    (batch_size : Nat) (s : Schedule) :
    Decidable (ValidSchedule read csv_files batch_size s) :=
  inferInstanceAs (Decidable (_ ∧ _))

/-- The JSON body of the merge handler's response (the fields the claims
inspect; `total_rows` and `output_file` are absent from the zero-files
branch). -/
structure HandlerBody where
  message : String
  files_processed : Nat
  total_rows : Option Nat
  output_file : Option String
deriving DecidableEq

/-- A merge handler response. -/
structure HandlerResponse where
  statusCode : Nat
  body : HandlerBody
deriving DecidableEq

/-- `lambda_handler` of csv_merge_lambda.py after parameter extraction,
parameterised by the listing result `csv_files`: the zero-files early return
(lines 48-58) versus the merge run.  The second component records the
`put_object` writes issued to the destination bucket as (key, body) pairs. -/
def lambda_handler (read : String → Option String) (csv_files : List FileObj)
    (batch_size : Nat) (sched : Schedule)
    (dest_bucket destPre output_filename : String) :
    HandlerResponse × List (String × String) :=
  if csv_files = [] then
    (⟨200, ⟨"Nenhum arquivo CSV encontrado", 0, none, none⟩⟩, [])
  else
    let r := merge_csv_files read csv_files batch_size sched destPre output_filename
    let text := String.join (r.mergedLines.map (fun line => line ++ "\n"))
    (⟨200, ⟨"Merge de CSVs concluído", r.files_processed, some r.total_rows,
        some ("s3://" ++ dest_bucket ++ "/" ++ r.output_key)⟩⟩,
     [(r.output_key, text)])

/-- Store for the race evaluation: three one-row CSV objects sharing the
header line `h`. -/
def raceRead : String → Option String := fun k =>
  if k = "a.csv" then some "h\n0"
  else if k = "b.csv" then some "h\n1"
  else if k = "c.csv" then some "h\n2"
  else none

/-- The three listed objects for the race evaluation. -/
def raceFiles : List FileObj :=
  [⟨"a.csv", 4, 0⟩, ⟨"b.csv", 4, 0⟩, ⟨"c.csv", 4, 0⟩]

end MergeCSV

namespace BatchGen

/-- One `batch_info` dict built by batch_generator_lambda.py lines 36-43. -/
structure BatchDescriptor where
  batch_number : Nat
  batch_start_index : Nat
  batch_end_index : Nat
  source_bucket : String
  source_prefix_field : String
  output_filename : String
deriving DecidableEq

/-- Python's format spec `{n:03d}`: decimal digits left-padded with zeros to
a minimum width of 3 (wider numbers are printed in full). -/
def pad3 (n : Nat) : String :=
  let s := toString n
  if s.length < 3 then String.mk (List.replicate (3 - s.length) '0') ++ s else s

/-- The planning loop of batch_generator_lambda.py `lambda_handler` (lines
29-55): `total_batches = math.ceil(total_files / files_per_batch)` (modelled
as the exact natural-number ceiling), and for each `batch_num` a descriptor
with `start = batch_num * files_per_batch`,
`end = min(start + files_per_batch, total_files)` and the zero-padded output
filename `f"merged_batch_{batch_num + 1:03d}.csv"`. -/
def plan (source_bucket srcPre : String) (total_files files_per_batch : Nat) :
    List BatchDescriptor :=
  let total_batches := (total_files + files_per_batch - 1) / files_per_batch
  (List.range total_batches).map fun batch_num =>
    { batch_number := batch_num + 1
      batch_start_index := batch_num * files_per_batch
      batch_end_index := min (batch_num * files_per_batch + files_per_batch) total_files
      source_bucket := source_bucket
      source_prefix_field := srcPre
      output_filename := "merged_batch_" ++ pad3 (batch_num + 1) ++ ".csv" }

end BatchGen

namespace Aggregator

/-- One element of `parallel_results` as the aggregation loop
(results_aggregator_lambda.py lines 36-69) classifies it: a parseable
`Payload.body` with status 200 (carrying its counters, execution time and
optional output file), a parseable payload with another status, a result
with an `error` field, a result whose processing raises (the inner
`except`), or a result matching none of the branches (silently skipped). -/
inductive ParallelResult where
  | payloadOk (files_processed total_rows execution_time_seconds : Nat)
      (output_file : Option String)
  | payloadErr (error message : String)
  | errField (error : String)
  | unparseable
  | skipped
deriving DecidableEq

/-- An entry of the `errors` list (three shapes in the source). -/
inductive ErrEntry where
  | fromPayload (error message : String)
  | fromErrField (error : String)
  | fromParse
deriving DecidableEq

/-- The accumulator variables of the aggregation loop. -/
structure AggState where
  total_files_processed : Nat
  total_rows : Nat
  successful_batches : Nat
  failed_batches : Nat
  execution_times : List Nat
  output_files : List String
  errors : List ErrEntry
deriving DecidableEq

/-- Initial accumulator values. -/
def initState : AggState := ⟨0, 0, 0, 0, [], [], []⟩

/-- One iteration of the `for result in parallel_results` loop. -/
def aggStep (st : AggState) (r : ParallelResult) : AggState :=
  match r with
  | .payloadOk f rw t out =>
    { st with
      successful_batches := st.successful_batches + 1
      total_files_processed := st.total_files_processed + f
      total_rows := st.total_rows + rw
      execution_times := st.execution_times ++ [t]
      output_files := st.output_files ++ (match out with | some o => [o] | none => []) }
  | .payloadErr e m =>
    { st with failed_batches := st.failed_batches + 1
              errors := st.errors ++ [.fromPayload e m] }
  | .errField e =>
    { st with failed_batches := st.failed_batches + 1
              errors := st.errors ++ [.fromErrField e] }
  | .unparseable =>
    { st with failed_batches := st.failed_batches + 1
              errors := st.errors ++ [.fromParse] }
  | .skipped => st

/-- The `summary_report` dict (results_aggregator_lambda.py lines 73-89);
the timestamp is not modelled and `round(·, 2)` is omitted (rates and
averages are kept as exact rationals). -/
structure SummaryReport where
  total_batches : Nat
  successful_batches : Nat
  failed_batches : Nat
  success_rate : ℚ
  total_files_processed : Nat
  total_rows : Nat
  average_execution_time : ℚ
  total_execution_time : Nat
  output_files : List String
  errors : List ErrEntry

/-- The aggregation core of results_aggregator_lambda.py `lambda_handler`:
fold the classification loop over `parallel_results` and build the report.
`success_rate` is `(successful_batches / len(parallel_results)) * 100 if
parallel_results else 0`, and `errors` is `errors[:10] if errors else []`.
Persisting the report is failure-tolerant in the source and not modelled. -/
def lambda_handler (parallel_results : List ParallelResult) : SummaryReport :=
  let st := parallel_results.foldl aggStep initState
  { total_batches := parallel_results.length
    successful_batches := st.successful_batches
    failed_batches := st.failed_batches
    success_rate :=
      if parallel_results = [] then 0
      else ((st.successful_batches : ℚ) / (parallel_results.length : ℚ)) * 100
    total_files_processed := st.total_files_processed
    total_rows := st.total_rows
    average_execution_time :=
      if st.execution_times = [] then 0
      else ((st.execution_times.sum : ℚ) / (st.execution_times.length : ℚ))
    total_execution_time := st.execution_times.sum
    output_files := st.output_files
    errors := st.errors.take 10 }

end Aggregator

theorem chunkListAux_nil (B fuel : Nat) : chunkListAux B fuel ([] : List α) = [] := by
  cases fuel <;> rfl

theorem chunkListAux_fuel (B : Nat) (hB : 0 < B) :
    ∀ (fuel₁ fuel₂ : Nat) (l : List α), l.length ≤ fuel₁ → l.length ≤ fuel₂ →
      chunkListAux B fuel₁ l = chunkListAux B fuel₂ l := by
  intro fuel₁
  induction fuel₁ with
  | zero =>
    intro fuel₂ l h₁ _
    have : l = [] := List.eq_nil_of_length_eq_zero (Nat.le_zero.mp h₁)
    subst this
    simp [chunkListAux_nil]
  | succ f ih =>
    intro fuel₂ l h₁ h₂
    cases l with
    | nil => simp [chunkListAux_nil]
    | cons a t =>
      cases fuel₂ with
      | zero => simp at h₂
      | succ g =>
        show ((a :: t).take B) :: chunkListAux B f ((a :: t).drop B)
            = ((a :: t).take B) :: chunkListAux B g ((a :: t).drop B)
        have hlen : ((a :: t).drop B).length = t.length + 1 - B := by
          simp [List.length_drop]
        have hf : ((a :: t).drop B).length ≤ f := by
          simp only [List.length_cons] at h₁
          omega
        have hg : ((a :: t).drop B).length ≤ g := by
          simp only [List.length_cons] at h₂
          omega
        rw [ih _ _ hf hg]

theorem chunkList_nil (B : Nat) : chunkList ([] : List α) B = [] := by
  unfold chunkList
  split <;> simp [chunkListAux_nil]

theorem chunkList_cons (hB : 0 < B) (a : α) (l : List α) :
    chunkList (a :: l) B = ((a :: l).take B) :: chunkList ((a :: l).drop B) B := by
  have hBne : B ≠ 0 := Nat.pos_iff_ne_zero.mp hB
  unfold chunkList
  simp only [hBne, if_false]
  show ((a :: l).take B) :: chunkListAux B l.length ((a :: l).drop B) = _
  congr 1
  apply chunkListAux_fuel B hB
  · simp [List.length_drop]; omega
  · exact Nat.le_refl _

theorem chunkList_join (B : Nat) (hB : 0 < B) (l : List α) :
    (chunkList l B).flatten = l := by
  match l with
  | [] => simp [chunkList_nil]
  | a :: t =>
    rw [chunkList_cons hB, List.flatten_cons, chunkList_join B hB ((a :: t).drop B)]
    exact List.take_append_drop B (a :: t)
termination_by l.length
decreasing_by
  simp only [List.length_drop, List.length_cons]
  omega

/-- Ceiling-division step used for the chunk-count lemma. -/
theorem ceil_div_step (B m : Nat) (hB : 0 < B) (hm : 0 < m) :
    (m + B - 1) / B = (m - B + B - 1) / B + 1 := by
  rcases le_or_lt m B with h | h
  · have h1 : m - B = 0 := Nat.sub_eq_zero_of_le h
    rw [h1]
    have h2 : (0 + B - 1) / B = 0 := Nat.div_eq_of_lt (by omega)
    rw [h2]
    have h3 : m + B - 1 = (m - 1) + B := by omega
    rw [h3, Nat.add_div_right _ hB, Nat.div_eq_of_lt (by omega)]
  · have e1 : m + B - 1 = (m - 1 - B) + B + B := by omega
    have e2 : m - B + B - 1 = (m - 1 - B) + B := by omega
    rw [e1, e2, Nat.add_div_right _ hB, Nat.add_div_right _ hB]

theorem chunkList_length (B : Nat) (hB : 0 < B) (l : List α) :
    (chunkList l B).length = (l.length + B - 1) / B := by
  match l with
  | [] =>
    rw [chunkList_nil]
    simp
    exact (Nat.div_eq_of_lt (by omega)).symm
  | a :: t =>
    rw [chunkList_cons hB, List.length_cons, chunkList_length B hB ((a :: t).drop B)]
    have hm : 0 < (a :: t).length := by simp
    rw [ceil_div_step B (a :: t).length hB hm]
    simp [List.length_drop]
termination_by l.length
decreasing_by
  simp only [List.length_drop, List.length_cons]
  omega

theorem chunkList_size_le (B : Nat) (hB : 0 < B) (l : List α) :
    ∀ c ∈ chunkList l B, c.length ≤ B := by
  match l with
  | [] => rw [chunkList_nil]; intro c hc; simp at hc
  | a :: t =>
    rw [chunkList_cons hB]
    intro c hc
    rcases List.mem_cons.mp hc with h | h
    · subst h
      simp [List.length_take]
    · exact chunkList_size_le B hB ((a :: t).drop B) c h
termination_by l.length
decreasing_by
  simp only [List.length_drop, List.length_cons]
  omega

theorem chunkList_getLast (B : Nat) (hB : 0 < B) (l : List α) (hl : l ≠ []) :
    ∃ c, (chunkList l B).getLast? = some c ∧
      c.length = l.length - B * ((l.length + B - 1) / B - 1) := by
  match l with
  | [] => exact absurd rfl hl
  | a :: t =>
    rcases le_or_lt (t.length + 1) B with h | h
    · -- everything fits in a single chunk
      have hd : (a :: t).drop B = [] := by
        apply List.drop_eq_nil_of_le
        simpa using h
      rw [chunkList_cons hB, hd, chunkList_nil]
      refine ⟨(a :: t).take B, rfl, ?_⟩
      have hceil : ((a :: t).length + B - 1) / B = 1 := by
        have h3 : (a :: t).length + B - 1 = ((a :: t).length - 1) + B := by
          simp only [List.length_cons]; omega
        rw [h3, Nat.add_div_right _ hB, Nat.div_eq_of_lt (by simp; omega)]
      rw [hceil]
      simp [List.length_take]
      omega
    · rw [chunkList_cons hB]
      have hdne : (a :: t).drop B ≠ [] := by
        intro h0
        have := List.drop_eq_nil_iff.mp h0
        simp only [List.length_cons] at this
        omega
      obtain ⟨c, hc, hlen⟩ := chunkList_getLast B hB ((a :: t).drop B) hdne
      have hne : chunkList ((a :: t).drop B) B ≠ [] := by
        intro h0
        rw [h0] at hc
        simp at hc
      refine ⟨c, ?_, ?_⟩
      · cases hcl : chunkList ((a :: t).drop B) B with
        | nil => exact absurd hcl hne
        | cons x xs =>
          rw [List.getLast?_cons_cons]
          rw [hcl] at hc
          exact hc
      · have hD : ((a :: t).drop B).length = (a :: t).length - B := by
          simp [List.length_drop]
        rw [hD] at hlen
        have hmB : B < (a :: t).length := by
          simp only [List.length_cons]
          omega
        rw [ceil_div_step B (a :: t).length hB (by omega)]
        have hq1 : 1 ≤ ((a :: t).length - B + B - 1) / B :=
          (Nat.one_le_div_iff hB).mpr (by omega)
        obtain ⟨e, he⟩ : ∃ e, ((a :: t).length - B + B - 1) / B = e + 1 :=
          ⟨((a :: t).length - B + B - 1) / B - 1, by omega⟩
        rw [he] at hlen ⊢
        have h1 : e + 1 - 1 = e := by omega
        have h2 : e + 1 + 1 - 1 = e + 1 := by omega
        rw [h1] at hlen
        rw [h2, Nat.mul_succ]
        generalize hp : B * e = p at hlen ⊢
        omega
termination_by l.length
decreasing_by
  simp only [List.length_drop, List.length_cons]
  omega

/-- C5: for every finite sequence and every positive batch size, the batch
partitioning used by both orchestrators yields contiguous slices covering all
elements exactly once in order, in exactly `ceil(N/B)` batches, each of size
at most `B`, the last of size `N - B*(ceil(N/B)-1)`. -/
theorem claim_C5 {α : Type} (l : List α) (B : Nat) (hB : 0 < B) :
    (chunkList l B).flatten = l ∧
    (chunkList l B).length = (l.length + B - 1) / B ∧
    (∀ c ∈ chunkList l B, c.length ≤ B) ∧
    (l ≠ [] → ∃ c, (chunkList l B).getLast? = some c ∧
      c.length = l.length - B * ((l.length + B - 1) / B - 1)) :=
  ⟨chunkList_join B hB l, chunkList_length B hB l, chunkList_size_le B hB l,
    fun hl => chunkList_getLast B hB l hl⟩

/-- C5 witness: the partition property evaluated on a concrete sequence. -/
theorem claim_C5_witness :
    (chunkList [0, 1, 2, 3, 4] 2).flatten = [0, 1, 2, 3, 4] ∧
    (chunkList [0, 1, 2, 3, 4] 2).length = (5 + 2 - 1) / 2 :=
  ⟨(claim_C5 [0, 1, 2, 3, 4] 2 (by decide)).1,
   (claim_C5 [0, 1, 2, 3, 4] 2 (by decide)).2.1⟩

theorem moveFileFrom_succ (beh : Nat → Mover.MoveAttemptBehavior) (a n : Nat) :
    Mover.moveFileFrom beh a (n + 1) =
      match (Mover.stepMove (beh a) (n == 0)).1 with
      | some r => (r, (Mover.stepMove (beh a) (n == 0)).2)
      | none => ((Mover.moveFileFrom beh (a + 1) n).1,
          (Mover.stepMove (beh a) (n == 0)).2 + (Mover.moveFileFrom beh (a + 1) n).2) := rfl

theorem stepMove_head_fail (b : Mover.MoveAttemptBehavior) (last : Bool)
    (h1 : b.copy = .ok) (h2 : b.head ≠ .ok) :
    Mover.stepMove b last = (if last then (some false, 0) else (none, 0)) := by
  rcases b with ⟨bc, bh, bd⟩
  simp only at h1
  subst h1
  cases bh <;> simp [Mover.stepMove] at h2 ⊢

theorem stepMove_deletes_pos (b : Mover.MoveAttemptBehavior) (last : Bool)
    (h : 0 < (Mover.stepMove b last).2) : b.head = .ok := by
  rcases b with ⟨bc, bh, bd⟩
  cases bc <;> cases bh <;> cases bd <;>
    simp only [Mover.stepMove] at h ⊢ <;>
    first
      | rfl
      | (split_ifs at h <;> simp_all)

theorem moveFileFrom_head_fail (beh : Nat → Mover.MoveAttemptBehavior)
    (hcopy : ∀ i, (beh i).copy = .ok) (hhead : ∀ i, (beh i).head ≠ .ok) :
    ∀ a n, Mover.moveFileFrom beh a n = (false, 0) := by
  intro a n
  induction n generalizing a with
  | zero => rfl
  | succ n ih =>
    rw [moveFileFrom_succ, stepMove_head_fail (beh a) (n == 0) (hcopy a) (hhead a)]
    cases hn : (n == 0) <;> simp [ih]

/-- C1: if every attempt's copy succeeds but the destination verification
probe (head request) fails on every attempt, `move_file` returns `false`
after its bounded retries and issues no delete of the source; and in every
run whatsoever, a delete is issued only if some attempt's verification probe
succeeded. -/
theorem claim_C1 (beh : Nat → Mover.MoveAttemptBehavior)
    (hcopy : ∀ i, (beh i).copy = .ok)
    (hhead : ∀ i, (beh i).head ≠ .ok) :
    Mover.move_file beh = (false, 0) ∧
    ∀ (b2 : Nat → Mover.MoveAttemptBehavior) (a n : Nat),
      0 < (Mover.moveFileFrom b2 a n).2 → ∃ i, (b2 i).head = .ok := by
  constructor
  · exact moveFileFrom_head_fail beh hcopy hhead 0 2
  · intro b2 a n
    induction n generalizing a with
    | zero =>
      intro h
      simp [Mover.moveFileFrom] at h
    | succ n ih =>
      rw [moveFileFrom_succ]
      cases hs : (Mover.stepMove (b2 a) (n == 0)).1 with
      | none =>
        intro h
        simp only at h
        by_cases h2 : 0 < (Mover.stepMove (b2 a) (n == 0)).2
        · exact ⟨a, stepMove_deletes_pos _ _ h2⟩
        · exact ih (a + 1) (by omega)
      | some r =>
        intro h
        simp only at h
        exact ⟨a, stepMove_deletes_pos _ _ h⟩

/-- C1 witness: concrete store where copy always succeeds and the probe
always raises `ClientError`. -/
theorem claim_C1_witness :
    Mover.move_file (fun _ => ⟨.ok, .clientErr "InternalError", .ok⟩) = (false, 0) :=
  (claim_C1 (fun _ => ⟨.ok, .clientErr "InternalError", .ok⟩)
    (fun _ => rfl) (fun _ h => Mover.Outcome.noConfusion h)).1

theorem getFilesFrom_zero (beh : Nat → Listing.AttemptBehavior) (a : Nat) :
    Listing.getFilesFrom beh a 0 = (.ok [], 0, 0) := rfl

theorem getFilesFrom_succ (beh : Nat → Listing.AttemptBehavior) (a n : Nat) :
    Listing.getFilesFrom beh a (n + 1) =
      match Listing.listAttempt (beh a) a (n == 0) with
      | .ret fs => (.ok fs, 1, 0)
      | .raised c => (.error c, 1, 0)
      | .next slept =>
        ((Listing.getFilesFrom beh (a + 1) n).1,
         (Listing.getFilesFrom beh (a + 1) n).2.1 + 1,
         (Listing.getFilesFrom beh (a + 1) n).2.2 + (if slept then 1 else 0)) := rfl

/-- C3: a listing whose first store call raises a permanent `ClientError`
(bucket-not-found or access-denied) re-raises immediately: exactly 1
top-level attempt, no backoff sleep; while a transient `ClientError` on every
attempt is retried up to the attempt cap (3 attempts) and then yields the
empty result instead of raising. -/
theorem claim_C3 :
    (∀ (beh : Nat → Listing.AttemptBehavior) (c : String),
      c ∈ Listing.permanentListCodes →
      (beh 0).standard = .clientErr c →
      Listing.get_files_with_retry beh = (.error c, 1, 0)) ∧
    (∀ (beh : Nat → Listing.AttemptBehavior) (c : String),
      c ∉ Listing.permanentListCodes →
      (∀ i, (beh i).standard = .clientErr c) →
      Listing.get_files_with_retry beh = (.ok [], 3, 2)) := by
  constructor
  · intro beh c hc hstd
    show Listing.getFilesFrom beh 0 (2 + 1) = (.error c, 1, 0)
    rw [getFilesFrom_succ]
    simp [Listing.listAttempt, hstd, hc]
  · intro beh c hc hstd
    have e2 : Listing.getFilesFrom beh 2 (0 + 1) = (.ok [], 1, 0) := by
      rw [getFilesFrom_succ]
      simp [Listing.listAttempt, hstd 2, hc, getFilesFrom_zero]
    have e1 : Listing.getFilesFrom beh 1 (1 + 1) = (.ok [], 2, 1) := by
      rw [getFilesFrom_succ]
      simp [Listing.listAttempt, hstd 1, hc, e2]
    show Listing.getFilesFrom beh 0 (2 + 1) = (.ok [], 3, 2)
    rw [getFilesFrom_succ]
    simp [Listing.listAttempt, hstd 0, hc, e1]

/-- C3 witness: permanent bucket-not-found error on the first call. -/
theorem claim_C3_witness :
    Listing.get_files_with_retry (fun _ => ⟨.clientErr "NoSuchBucket", .ok [], []⟩)
      = (.error "NoSuchBucket", 1, 0) :=
  claim_C3.1 (fun _ => ⟨.clientErr "NoSuchBucket", .ok [], []⟩) "NoSuchBucket"
    (by decide) rfl

/-- C4: when every strategy yields zero objects on every attempt and nothing
raises, the listing returns the empty sequence without raising, in at most 3
top-level attempts. -/
theorem claim_C4 (beh : Nat → Listing.AttemptBehavior)
    (hstd : ∀ i, (beh i).standard = .ok [])
    (hpag : ∀ i, (beh i).manualPagination = .ok [])
    (htime : ∀ i, (beh i).timeRange = []) :
    (Listing.get_files_with_retry beh).1 = .ok [] ∧
    (Listing.get_files_with_retry beh).2.1 ≤ 3 := by
  have e2 : Listing.getFilesFrom beh 2 (0 + 1) = (.ok [], 1, 0) := by
    rw [getFilesFrom_succ]
    simp [Listing.listAttempt, hstd 2, getFilesFrom_zero]
  have e1 : Listing.getFilesFrom beh 1 (1 + 1) = (.ok [], 2, 1) := by
    rw [getFilesFrom_succ]
    simp [Listing.listAttempt, hstd 1, htime 1, e2]
  have e0 : Listing.getFilesFrom beh 0 (2 + 1) = (.ok [], 3, 2) := by
    rw [getFilesFrom_succ]
    simp [Listing.listAttempt, hstd 0, hpag 0, e1]
  show (Listing.getFilesFrom beh 0 3).1 = .ok [] ∧ (Listing.getFilesFrom beh 0 3).2.1 ≤ 3
  rw [show (3 : Nat) = 2 + 1 from rfl, e0]
  exact ⟨rfl, Nat.le_refl 3⟩

/-- C4 witness: a store on which all three strategies always come back
empty. -/
theorem claim_C4_witness :
    (Listing.get_files_with_retry (fun _ => ⟨.ok [], .ok [], []⟩)).1 = .ok [] ∧
    (Listing.get_files_with_retry (fun _ => ⟨.ok [], .ok [], []⟩)).2.1 ≤ 3 :=
  claim_C4 (fun _ => ⟨.ok [], .ok [], []⟩) (fun _ => rfl) (fun _ => rfl) (fun _ => rfl)

theorem batchStep_foldl_sum (out : FileObj → Mover.FileOutcome) :
    ∀ (batch : List FileObj) (s e : Nat),
      (batch.foldl (Mover.batchStep out) (s, e)).1 +
      (batch.foldl (Mover.batchStep out) (s, e)).2 = s + e + batch.length := by
  intro batch
  induction batch with
  | nil => intro s e; simp
  | cons a t ih =>
    intro s e
    simp only [List.foldl_cons]
    have hstep : Mover.batchStep out (s, e) a = (s + 1, e) ∨
        Mover.batchStep out (s, e) a = (s, e + 1) := by
      unfold Mover.batchStep
      cases out a <;> simp
    rcases hstep with h | h <;>
      rw [h, ih] <;> simp only [List.length_cons] <;> omega

theorem process_batch_sum (out : FileObj → Mover.FileOutcome) (batch : List FileObj) :
    (Mover.process_batch out batch).1 + (Mover.process_batch out batch).2 = batch.length := by
  have h := batchStep_foldl_sum out batch 0 0
  simpa [Mover.process_batch] using h

theorem batchesStep_foldl_sum (out : FileObj → Mover.FileOutcome) :
    ∀ (chunks : List (List FileObj)) (s e : Nat),
      (chunks.foldl (Mover.batchesStep out) (s, e)).1 +
      (chunks.foldl (Mover.batchesStep out) (s, e)).2 =
        s + e + (chunks.map List.length).sum := by
  intro chunks
  induction chunks with
  | nil => intro s e; simp
  | cons c t ih =>
    intro s e
    simp only [List.foldl_cons]
    have hb : Mover.batchesStep out (s, e) c =
        (s + (Mover.process_batch out c).1, e + (Mover.process_batch out c).2) := rfl
    rw [hb, ih]
    have hc := process_batch_sum out c
    simp only [List.map_cons, List.sum_cons]
    omega

/-- C9: the mover's counters are conserved: over any input list (with a
positive batch size, as required by the slicing loop) every file contributes
to exactly one of the two counters, so `success_count + error_count` equals
the number of input files. -/
theorem claim_C9 (out : FileObj → Mover.FileOutcome) (files : List FileObj)
    (batch_size : Nat) (hB : 0 < batch_size) :
    (Mover.process_files_in_batches out files batch_size).1 +
    (Mover.process_files_in_batches out files batch_size).2 = files.length := by
  have h := batchesStep_foldl_sum out (chunkList files batch_size) 0 0
  have hlen : ((chunkList files batch_size).map List.length).sum = files.length := by
    have hj := chunkList_join batch_size hB files
    calc ((chunkList files batch_size).map List.length).sum
        = (chunkList files batch_size).flatten.length := (List.length_flatten _).symm
      _ = files.length := by rw [hj]
  simpa [Mover.process_files_in_batches, hlen] using h

/-- C9 witness: three concrete files, one of which moves successfully. -/
theorem claim_C9_witness :
    (Mover.process_files_in_batches
        (fun f => if f.Key = "a" then .moved else .moveFailed)
        [⟨"a", 1, 0⟩, ⟨"b", 1, 0⟩, ⟨"c", 1, 0⟩] 2).1 +
    (Mover.process_files_in_batches
        (fun f => if f.Key = "a" then .moved else .moveFailed)
        [⟨"a", 1, 0⟩, ⟨"b", 1, 0⟩, ⟨"c", 1, 0⟩] 2).2 = 3 :=
  claim_C9 (fun f => if f.Key = "a" then .moved else .moveFailed)
    [⟨"a", 1, 0⟩, ⟨"b", 1, 0⟩, ⟨"c", 1, 0⟩] 2 (by decide)

/-- C10: for every merge run (any store, file list, batch size and reachable
completion order), the returned `files_processed` equals `total_rows`: each
valid file bumps both counters together inside the critical section, and
invalid or unreadable files bump neither. -/
theorem claim_C10 (read : String → Option String) (csv_files : List FileObj)
    (batch_size : Nat) (sched : MergeCSV.Schedule) (destPre fname : String)
    (hperm : sched.completion.Perm
      (List.range (chunkList csv_files batch_size).length)) :
    (MergeCSV.merge_csv_files read csv_files batch_size sched destPre
        fname).files_processed =
    (MergeCSV.merge_csv_files read csv_files batch_size sched destPre
        fname).total_rows := by
  show ((List.range (chunkList csv_files batch_size).length).map fun i =>
      (MergeCSV.batchData read ((chunkList csv_files batch_size).getD i [])).length).sum =
    (sched.completion.map fun i =>
      (MergeCSV.batchData read ((chunkList csv_files batch_size).getD i [])).length).sum
  exact (List.Perm.sum_eq (hperm.map _)).symm

/-- C10 witness: two batches over three concrete files, completing in
reverse order. -/
theorem claim_C10_witness :
    (MergeCSV.merge_csv_files MergeCSV.raceRead MergeCSV.raceFiles 2
        ⟨0, [1, 0]⟩ "" "m.csv").files_processed =
    (MergeCSV.merge_csv_files MergeCSV.raceRead MergeCSV.raceFiles 2
        ⟨0, [1, 0]⟩ "" "m.csv").total_rows :=
  claim_C10 MergeCSV.raceRead MergeCSV.raceFiles 2 ⟨0, [1, 0]⟩ "" "m.csv" (by decide)

/-- C8: a merge invocation whose listing yields zero CSV objects returns the
success response with `files_processed = 0` and the no-files message, and
issues no write to the destination bucket. -/
theorem claim_C8 (read : String → Option String) (csv_files : List FileObj)
    (batch_size : Nat) (sched : MergeCSV.Schedule) (db dp fn : String)
    (h : csv_files = []) :
    MergeCSV.lambda_handler read csv_files batch_size sched db dp fn =
      (⟨200, ⟨"Nenhum arquivo CSV encontrado", 0, none, none⟩⟩, []) := by
  subst h
  rfl

/-- C8 witness: the handler at the empty listing. -/
theorem claim_C8_witness :
    MergeCSV.lambda_handler (fun _ => none) [] 100 ⟨0, []⟩ "db" "" "out.csv" =
      (⟨200, ⟨"Nenhum arquivo CSV encontrado", 0, none, none⟩⟩, []) :=
  claim_C8 (fun _ => none) [] 100 ⟨0, []⟩ "db" "" "out.csv" rfl

/-- C7: the aggregator on an empty `parallel_results` array reports
`success_rate = 0` (the division is guarded) and `total_batches = 0`; and on
every input the report's error list is truncated to at most 10 entries. -/
theorem claim_C7 :
    (Aggregator.lambda_handler []).success_rate = 0 ∧
    (Aggregator.lambda_handler []).total_batches = 0 ∧
    ∀ rs : List Aggregator.ParallelResult,
      ((Aggregator.lambda_handler rs).errors).length ≤ 10 := by
  refine ⟨rfl, rfl, ?_⟩
  intro rs
  show ((rs.foldl Aggregator.aggStep Aggregator.initState).errors.take 10).length ≤ 10
  rw [List.length_take]
  exact Nat.min_le_left _ _

/-- C6: the batch planner emits exactly `ceil(totalFiles / filesPerBatch)`
descriptors, descriptor `i` covering `[i*B, min((i+1)*B, totalFiles))` with a
zero-padded output filename; in particular `plan(2500, 1000)` yields ranges
`[0,1000), [1000,2000), [2000,2500)`. -/
theorem claim_C6 (src spre : String) (T B : Nat) (hB : 0 < B) :
    (BatchGen.plan src spre T B).length = (T + B - 1) / B ∧
    (∀ i, i < (T + B - 1) / B →
      (BatchGen.plan src spre T B)[i]? =
        some { batch_number := i + 1
               batch_start_index := i * B
               batch_end_index := min ((i + 1) * B) T
               source_bucket := src
               source_prefix_field := spre
               output_filename := "merged_batch_" ++ BatchGen.pad3 (i + 1) ++ ".csv" }) ∧
    ((BatchGen.plan src spre 2500 1000).map
        (fun d => (d.batch_start_index, d.batch_end_index)) =
      [(0, 1000), (1000, 2000), (2000, 2500)]) := by
  refine ⟨?_, ?_, ?_⟩
  · simp [BatchGen.plan]
  · intro i hi
    have hmul : (i + 1) * B = i * B + B := Nat.succ_mul i B
    rw [hmul]
    simp [BatchGen.plan, List.getElem?_map, List.getElem?_range, hi]
  · rfl

/-- C6 witness: the concrete plan for 2500 files in batches of 1000. -/
theorem claim_C6_witness :
    (BatchGen.plan "bkt" "" 2500 1000).map
        (fun d => (d.batch_start_index, d.batch_end_index)) =
      [(0, 1000), (1000, 2000), (2000, 2500)] :=
  (claim_C6 "bkt" "" 2500 1000 (by decide)).2.2

/-- C2: evaluation of the merge at a reachable schedule over three two-line
CSVs sharing header `h`: with batch size 1, the batch that wins the header
race can complete after another batch, so the first line of the output is a
data line rather than the header, even though the header occurs exactly once
and both counters equal 3.  This contradicts the claim (and the repo's own
`test_lambda_handler_success` assertion that line 0 of the merged object is
the header). -/
theorem claim_C2_race_eval :
    MergeCSV.ValidSchedule MergeCSV.raceRead MergeCSV.raceFiles 1 ⟨0, [1, 0, 2]⟩ ∧
    MergeCSV.validEntry MergeCSV.raceRead ⟨"a.csv", 4, 0⟩ = some ("h", "0") ∧
    MergeCSV.validEntry MergeCSV.raceRead ⟨"b.csv", 4, 0⟩ = some ("h", "1") ∧
    MergeCSV.validEntry MergeCSV.raceRead ⟨"c.csv", 4, 0⟩ = some ("h", "2") ∧
    (MergeCSV.merge_csv_files MergeCSV.raceRead MergeCSV.raceFiles 1
        ⟨0, [1, 0, 2]⟩ "" "merged.csv").files_processed = 3 ∧
    (MergeCSV.merge_csv_files MergeCSV.raceRead MergeCSV.raceFiles 1
        ⟨0, [1, 0, 2]⟩ "" "merged.csv").total_rows = 3 ∧
    (MergeCSV.merge_csv_files MergeCSV.raceRead MergeCSV.raceFiles 1
        ⟨0, [1, 0, 2]⟩ "" "merged.csv").mergedLines = ["1", "h", "0", "2"] ∧
    (MergeCSV.merge_csv_files MergeCSV.raceRead MergeCSV.raceFiles 1
        ⟨0, [1, 0, 2]⟩ "" "merged.csv").mergedLines.head? ≠ some "h" := by
  decide

/-- C7 witness: twelve failed results still yield at most ten error
entries. -/
theorem claim_C7_witness :
    ((Aggregator.lambda_handler (List.replicate 12 .unparseable)).errors).length ≤ 10 :=
  claim_C7.2.2 (List.replicate 12 .unparseable)
